import Mathlib

/-!
Shallow embedding of `morphomatics/manifold/SE3.py`: the product manifold
SE(3)^k of rigid motions, its affine group structure, and the closed-form
batched exponential / logarithm maps.

Points and tangent vectors are batches of k real 4x4 matrices.  The external
SO(3) routines (`SO3.expm`, `SO3.logm`) are collaborators outside this file's
source and are abstracted as function parameters; theorems that need their
contract state it as a hypothesis.
-/

open Matrix

/-- A single 3x3 real matrix (rotation block). -/
abbrev Mat3 : Type := Matrix (Fin 3) (Fin 3) ℝ

/-- A single 4x4 real matrix (one slot of a batch). -/
abbrev Mat4 : Type := Matrix (Fin 4) (Fin 4) ℝ

/-- A batch of k 4x4 matrices: the representation of elements of SE(3)^k and
of Lie-algebra elements (`kx4x4` arrays in the source). -/
abbrev Batch (k : ℕ) : Type := Fin k → Mat4

/-- `jnp.finfo(jnp.float64).eps`, the double-precision machine epsilon 2^-52. -/
noncomputable def fp64eps : ℝ := 1 / 2 ^ 52

/-- The rotation block `A[:3, :3]` of a 4x4 slot. -/
def rotBlk (A : Mat4) : Mat3 := fun i j => A i.castSucc j.castSucc

/-- The translation block `A[:3, 3]` of a 4x4 slot. -/
def transBlk (A : Mat4) : Fin 3 → ℝ := fun i => A i.castSucc 3

/-- `A.at[:3, :3].set(R)`: overwrite the rotation block, keep the rest. -/
def setRot (A : Mat4) (R : Mat3) : Mat4 := fun i j =>
  if hi : i.val < 3 then
    if hj : j.val < 3 then R ⟨i.val, hi⟩ ⟨j.val, hj⟩ else A i j
  else A i j

/-- `A.at[:3, 3].set(t)`: overwrite the translation block, keep the rest. -/
def setTrans (A : Mat4) (t : Fin 3 → ℝ) : Mat4 := fun i j =>
  if hi : i.val < 3 then
    if j = 3 then t ⟨i.val, hi⟩ else A i j
  else A i j

/-- `A.at[3, 3].set(v)`: overwrite the single entry at row 3, column 3. -/
def setE33 (A : Mat4) (v : ℝ) : Mat4 := fun i j =>
  if i = 3 ∧ j = 3 then v else A i j

/-- `jnp.sinc`, the normalized sinc function: `sin(pi x)/(pi x)`, 1 at 0. -/
noncomputable def sinc (x : ℝ) : ℝ :=
  if x = 0 then 1 else Real.sin (Real.pi * x) / (Real.pi * x)

/-- `theta2` of a 3x3 block: `.5 * jnp.sum(w ** 2)` over the block entries. -/
noncomputable def theta2 (w : Mat3) : ℝ := (1 / 2) * ∑ i, ∑ j, w i j ^ 2

/-- `theta = jnp.sqrt(theta2 + jnp.finfo(jnp.float64).eps)`. -/
noncomputable def theta (w : Mat3) : ℝ := Real.sqrt (theta2 w + fp64eps)

open Classical in
/-- One slot of `expm(X)`: rotation block set to `SO3_expm` of the input
rotation block, translation block set to `V @ t` with the two
`jnp.where(theta < 1e-6, taylor, closed_form)` coefficients, entry (3,3) set
to 1, all remaining entries of the slot passed through. -/
noncomputable def expmSlot (so3expm : Mat3 → Mat3) (A : Mat4) : Mat4 :=
  let Ω : Mat3 := rotBlk A
  let R : Mat3 := so3expm Ω
  let t2 : ℝ := theta2 Ω
  let θ : ℝ := theta Ω
  let a : ℝ := if θ < 1e-6 then 1/2 - t2/24 + t2^2/720 else (1 - Real.cos θ) / t2
  let b : ℝ := if θ < 1e-6 then 1/6 - t2/120 + t2^2/5040
               else (θ - Real.sin θ) / (t2 * θ)
  let V : Mat3 := 1 + a • Ω + b • (Ω * Ω)
  setE33 (setTrans (setRot A R) (V.mulVec (transBlk A))) 1

/-- `expm(X)`, slotwise over the batch. -/
noncomputable def expm (so3expm : Mat3 → Mat3) {k : ℕ} (X : Batch k) : Batch k :=
  fun i => expmSlot so3expm (X i)

open Classical in
/-- One slot of `logm(P)`: rotation block set to `w = SO3_logm` of the input
rotation block, translation block set to `Vinv @ t`, entry (3,3) set to 0,
all remaining entries of the slot passed through. -/
noncomputable def logmSlot (so3logm : Mat3 → Mat3) (A : Mat4) : Mat4 :=
  let w : Mat3 := so3logm (rotBlk A)
  let t2 : ℝ := theta2 w
  let θ : ℝ := theta w
  let c : ℝ := if θ < 1e-6 then 1/12 + t2/720 + t2^2/30240
               else (1 - Real.cos (1/2 * θ) / sinc (1/2 * θ / Real.pi)) / t2
  let Vinv : Mat3 := 1 - (1/2 : ℝ) • w + c • (w * w)
  setE33 (setTrans (setRot A w) (Vinv.mulVec (transBlk A))) 0

/-- `logm(P)`, slotwise over the batch. -/
noncomputable def logm (so3logm : Mat3 → Mat3) {k : ℕ} (P : Batch k) : Batch k :=
  fun i => logmSlot so3logm (P i)

/-- Slotwise matrix product, `jnp.einsum('...ij,...jk', A, B)`. -/
def matmulB {k : ℕ} (A B : Batch k) : Batch k := fun i => A i * B i

namespace SE3

/-- `SE3.zerovec`: the batch of k zero 4x4 matrices. -/
def zerovec (k : ℕ) : Batch k := fun _ => 0

/-- `SE3.proj`: deliberately unimplemented, raises `NotImplementedError`. -/
def proj {k : ℕ} (_P _X : Batch k) : Except String (Batch k) :=
  .error "NotImplementedError: This function has not been implemented yet."

namespace AffineGroupStructure

/-- `AffineGroupStructure.identity`: k copies of the 4x4 identity matrix. -/
def identity (k : ℕ) : Batch k := fun _ => 1

/-- `AffineGroupStructure.inverse`: per slot, the rotation block becomes its
transpose `Rt` and the translation block becomes `-Rt @ t`, read from the
original input; the rest of the slot is passed through. -/
def inverse {k : ℕ} (P : Batch k) : Batch k := fun i =>
  let Rt : Mat3 := (rotBlk (P i))ᵀ
  setTrans (setRot (P i) Rt) ((-Rt).mulVec (transBlk (P i)))

/-- The variadic argument lists of `exp`/`log`: either a single algebra
element / point, or a footpoint together with a second argument. -/
inductive Args (k : ℕ) : Type
  | one (X : Batch k) : Args k
  | two (P X : Batch k) : Args k

/-- `argv[0]`. -/
def Args.first {k : ℕ} : Args k → Batch k
  | .one X => X
  | .two P _ => P

/-- `argv[-1]`. -/
def Args.last {k : ℕ} : Args k → Batch k
  | .one X => X
  | .two _ X => X

/-- `AffineGroupStructure.exp`: the pair `(argv[0], expm(argv[-1]))` is built
and `jax.lax.cond` on `len(argv) == 1` returns either its second component or
the slotwise product `expm(argv[-1]) @ argv[0]`. -/
noncomputable def exp (so3expm : Mat3 → Mat3) {k : ℕ} (argv : Args k) : Batch k :=
  let A : Batch k × Batch k := (argv.first, expm so3expm argv.last)
  match argv with
  | .one _ => A.2
  | .two _ _ => matmulB A.2 A.1

/-- `AffineGroupStructure.log`: `logm` of `jax.lax.cond(len(argv) == 1,
argv[-1], argv[-1] @ inverse(argv[0]))`. -/
noncomputable def log (so3logm : Mat3 → Mat3) {k : ℕ} (argv : Args k) : Batch k :=
  logm so3logm (match argv with
    | .one P => P
    | .two P S => matmulB S (inverse P))

/-- `coords` intermediate `x123`: the stacked rows `(X[:,0,1], X[:,0,2],
X[:,1,2])`, multiplied by `2 ** .5`. -/
noncomputable def x123 {k : ℕ} (X : Batch k) : Fin 3 → Fin k → ℝ := fun r i =>
  (if r.val = 0 then X i 0 1 else if r.val = 1 then X i 0 2 else X i 1 2)
    * Real.sqrt 2

/-- `coords` intermediate `x456`: `X[:, :3, 3].transpose()`. -/
def x456 {k : ℕ} (X : Batch k) : Fin 3 → Fin k → ℝ := fun r i =>
  X i r.castSucc 3

/-- `jnp.concatenate((a, b), axis=0)` of two `(3, k)` arrays. -/
def concat6 {k : ℕ} (a b : Fin 3 → Fin k → ℝ) : Fin 6 → Fin k → ℝ := fun r i =>
  if h : r.val < 3 then a ⟨r.val, h⟩ i else b ⟨r.val - 3, by omega⟩ i

/-- `AffineGroupStructure.coords`: concatenate `x123` and `x456` into a
`(6, k)` array and flatten to a `(6k, 1)` column in Fortran (column-major)
order: position `n` holds row `n % 6`, column `n / 6`. -/
noncomputable def coords {k : ℕ} (X : Batch k) : Fin (6 * k) → ℝ := fun n =>
  concat6 (x123 X) (x456 X) ⟨n.val % 6, by omega⟩ ⟨n.val / 6, by omega⟩

/-- `AffineGroupStructure.transp`: deliberately unimplemented. -/
def transp {k : ℕ} (_P _S _X : Batch k) : Except String (Batch k) :=
  .error "NotImplementedError: This function has not been implemented yet."

/-- `AffineGroupStructure.curvature_tensor`: deliberately unimplemented. -/
def curvature_tensor {k : ℕ} (_p _X _Y _Z : Batch k) : Except String (Batch k) :=
  .error "NotImplementedError: This function has not been implemented yet."

/-- `AffineGroupStructure.jacobiField`: deliberately unimplemented. -/
def jacobiField {k : ℕ} (_P _S : Batch k) (_t : ℝ) (_X : Batch k) :
    Except String (Batch k) :=
  .error "NotImplementedError: This function has not been implemented yet."

end AffineGroupStructure

/-- Whether `init{structure}Structure` exists on the SE3 class: only
`initAffineGroupStructure` is defined. -/
def hasInitStructure (s : String) : Bool := s = "AffineGroup"

/-- Outcome of `SE3.__init__(k, structure)`.  `k` is a Python number,
modelled as a rational; `installed` records the structure installed as both
connection and group (`none` when `structure` is falsy). -/
inductive InitResult : Type
  | ok (installed : Option String) : InitResult
  | runtimeError (msg : String) : InitResult
  | attributeError : InitResult
deriving DecidableEq

/-- `SE3.__init__`: `if k == 1: ... elif k > 1: ... else: raise RuntimeError`;
then, when `structure` is truthy, `getattr(self, f'init{structure}Structure')()`
(raising `AttributeError` for an unknown name, installing the structure as
both `_connec` and `_group` otherwise). -/
def SE3_init (k : ℚ) (structure_ : String) : InitResult :=
  if k = 1 ∨ k > 1 then
    if structure_ = "" then .ok none
    else if hasInitStructure structure_ then .ok (some structure_)
    else .attributeError
  else .runtimeError "k must be an integer no less than 1."

end SE3

/-- Validity of one SE(3) slot (spec §3 data model): orthogonal rotation
block with determinant +1 and bottom row exactly (0, 0, 0, 1). -/
def isSE3slot (A : Mat4) : Prop :=
  (rotBlk A)ᵀ * rotBlk A = 1 ∧ (rotBlk A).det = 1 ∧
    A 3 0 = 0 ∧ A 3 1 = 0 ∧ A 3 2 = 0 ∧ A 3 3 = 1

/-- A zero bottom row of one Lie-algebra slot (spec §3 data model). -/
def zeroBottomRow (A : Mat4) : Prop :=
  A 3 0 = 0 ∧ A 3 1 = 0 ∧ A 3 2 = 0 ∧ A 3 3 = 0

open Classical in
/-- Per-slot output matrix asserted by the spec for `expm`: rotation block
`R = SO3_expm(Ω)`, translation block `V @ t` with `V = I + a·Ω + b·Ω²`,
bottom row `(0, 0, 0, 1)`; `θ² = ½·sum(Ω⊙Ω)` (the spec defines the symbol θ²
without the ε offset) and `θ = sqrt(θ² + ε)`, with the closed forms taken
for `θ ≥ 1e-6` and the Taylor series otherwise. -/
noncomputable def expmSpecSlot (so3expm : Mat3 → Mat3) (A : Mat4) : Mat4 :=
  let Ω : Mat3 := rotBlk A
  let t : Fin 3 → ℝ := transBlk A
  let t2 : ℝ := (1 / 2) * ∑ i, ∑ j, Ω i j ^ 2
  let θ : ℝ := Real.sqrt (t2 + fp64eps)
  let a : ℝ := if θ < 1e-6 then 1/2 - t2/24 + t2^2/720 else (1 - Real.cos θ) / t2
  let b : ℝ := if θ < 1e-6 then 1/6 - t2/120 + t2^2/5040
               else (θ - Real.sin θ) / (t2 * θ)
  let V : Mat3 := 1 + a • Ω + b • (Ω * Ω)
  fun i j =>
    if hi : i.val < 3 then
      if hj : j.val < 3 then so3expm Ω ⟨i.val, hi⟩ ⟨j.val, hj⟩
      else V.mulVec t ⟨i.val, hi⟩
    else if j.val < 3 then 0 else 1

open Classical in
/-- Per-slot output matrix asserted by the spec for `logm`: rotation block
`w = SO3_logm(R)`, translation block `Vinv @ t` with
`Vinv = I − ½·w + c·(w·w)`, bottom row zero; `c = 1/12 + θ²/720 + θ⁴/30240`
for `θ < 1e-6` and `(1 − cos(θ/2)/sinc(θ/(2π)))/θ²` otherwise (normalized
sinc), with `θ²` again the offset-free quantity. -/
noncomputable def logmSpecSlot (so3logm : Mat3 → Mat3) (A : Mat4) : Mat4 :=
  let w : Mat3 := so3logm (rotBlk A)
  let t : Fin 3 → ℝ := transBlk A
  let t2 : ℝ := (1 / 2) * ∑ i, ∑ j, w i j ^ 2
  let θ : ℝ := Real.sqrt (t2 + fp64eps)
  let c : ℝ := if θ < 1e-6 then 1/12 + t2/720 + t2^2/30240
               else (1 - Real.cos (θ / 2) / sinc (θ / (2 * Real.pi))) / t2
  let Vinv : Mat3 := 1 - (1/2 : ℝ) • w + c • (w * w)
  fun i j =>
    if hi : i.val < 3 then
      if hj : j.val < 3 then w ⟨i.val, hi⟩ ⟨j.val, hj⟩
      else Vinv.mulVec t ⟨i.val, hi⟩
    else 0

/-- Per-slot output matrix asserted by the spec for `inverse`: rotation
block the transpose `Rᵗ`, translation block `−Rᵗ·t`, every other entry
unchanged from the input. -/
def inverseSpecSlot (A : Mat4) : Mat4 := fun i j =>
  if hi : i.val < 3 then
    if hj : j.val < 3 then (rotBlk A)ᵀ ⟨i.val, hi⟩ ⟨j.val, hj⟩
    else if j = 3 then (-((rotBlk A)ᵀ.mulVec (transBlk A))) ⟨i.val, hi⟩
    else A i j
  else A i j

/-- Entry `n` of the coordinate column asserted by the spec: for slot
`i = n / 6`, the six entries in order are `√2·X_i[0,1]`, `√2·X_i[0,2]`,
`√2·X_i[1,2]`, `X_i[0,3]`, `X_i[1,3]`, `X_i[2,3]` (column-major stacking:
all six coordinates of slot 0 first, then slot 1, and so on). -/
noncomputable def coordsSpec {k : ℕ} (X : Batch k) (n : Fin (6 * k)) : ℝ :=
  let i : Fin k := ⟨n.val / 6, by omega⟩
  if n.val % 6 = 0 then Real.sqrt 2 * X i 0 1
  else if n.val % 6 = 1 then Real.sqrt 2 * X i 0 2
  else if n.val % 6 = 2 then Real.sqrt 2 * X i 1 2
  else if n.val % 6 = 3 then X i 0 3
  else if n.val % 6 = 4 then X i 1 3
  else X i 2 3

/-! ### Helper lemmas -/

theorem castSucc_two : ((2 : Fin 3)).castSucc = (2 : Fin 4) := rfl

theorem val_three : ((3 : Fin 4)).val = 3 := rfl

theorem rotBlk_zero : rotBlk (0 : Mat4) = 0 := rfl

theorem rotBlk_one : rotBlk (1 : Mat4) = 1 := by
  funext i j
  simp [rotBlk, Matrix.one_apply, Fin.castSucc_inj]

theorem transBlk_zero : transBlk (0 : Mat4) = 0 := rfl

theorem transBlk_one : transBlk (1 : Mat4) = 0 := by
  funext i
  have : i.castSucc ≠ (3 : Fin 4) := by
    have := i.isLt
    simp [Fin.ext_iff, Fin.castSucc, Fin.castAdd, Fin.castLE]
    omega
  simp [transBlk, Matrix.one_apply, this]

/-! ### Claim theorems -/

/-- C4: the two call signatures of the structure's exp and log: with a
footpoint, `exp(P, X) = expm(X) · P` and `log(P, S) = logm(S · inverse(P))`
slotwise; without, `exp(X) = expm(X)` and `log(P) = logm(P)`. -/
theorem C4_exp_log_signatures (so3e so3l : Mat3 → Mat3) (k : ℕ)
    (P X S : Batch k) :
    SE3.AffineGroupStructure.exp so3e (.two P X) = matmulB (expm so3e X) P ∧
    SE3.AffineGroupStructure.exp so3e (.one X) = expm so3e X ∧
    SE3.AffineGroupStructure.log so3l (.two P S)
      = logm so3l (matmulB S (SE3.AffineGroupStructure.inverse P)) ∧
    SE3.AffineGroupStructure.log so3l (.one P) = logm so3l P :=
  ⟨rfl, rfl, rfl, rfl⟩

/-- C6 (divergence): `SE3.__init__` accepts the non-integer k = 3/2 (the
`k > 1` branch is taken) and installs the AffineGroup structure, although
its own error message demands an integer k; 3/2 has denominator 2, so it is
not an integer. -/
theorem C6_noninteger_k_accepted :
    SE3.SE3_init (3 / 2) "AffineGroup"
        = SE3.InitResult.ok (some "AffineGroup") ∧
      ¬ ∃ n : ℤ, (3 / 2 : ℚ) = (n : ℚ) := by
  constructor
  · have h : (3 / 2 : ℚ) > 1 := by norm_num
    simp [SE3.SE3_init, SE3.hasInitStructure, h]
  · rintro ⟨n, hn⟩
    have h2 : (3 : ℚ) = (n : ℚ) * 2 := by
      field_simp at hn
      linarith
    have h3 : (3 : ℤ) = n * 2 := by exact_mod_cast h2
    omega

/-- C7: `proj`, `transp`, `curvature_tensor` and `jacobiField` raise
`NotImplementedError` on every input and never return a value. -/
theorem C7_unsupported_ops (k : ℕ) (P X S Y Z p : Batch k) (t : ℝ) :
    SE3.proj P X
        = .error "NotImplementedError: This function has not been implemented yet." ∧
    SE3.AffineGroupStructure.transp P S X
        = .error "NotImplementedError: This function has not been implemented yet." ∧
    SE3.AffineGroupStructure.curvature_tensor p X Y Z
        = .error "NotImplementedError: This function has not been implemented yet." ∧
    SE3.AffineGroupStructure.jacobiField P S t X
        = .error "NotImplementedError: This function has not been implemented yet." :=
  ⟨rfl, rfl, rfl, rfl⟩

/-- C10: `expm`, `logm` and `inverse` pass the bottom-row entries [3,0],
[3,1], [3,2] of every slot through from input to output unchanged, on every
input batch; `inverse` additionally passes [3,3] through. -/
theorem C10_bottom_row_passthrough (so3e so3l : Mat3 → Mat3) (k : ℕ)
    (X P Q : Batch k) (i : Fin k) (j : Fin 4) (hj : j.val < 3) :
    expm so3e X i 3 j = X i 3 j ∧
    logm so3l P i 3 j = P i 3 j ∧
    SE3.AffineGroupStructure.inverse Q i 3 j = Q i 3 j ∧
    SE3.AffineGroupStructure.inverse Q i 3 3 = Q i 3 3 := by
  have h33 : ((3 : Fin 4)).val = 3 := rfl
  have hj3 : j ≠ 3 := by
    intro h
    rw [h, h33] at hj
    exact lt_irrefl 3 hj
  refine ⟨?_, ?_, ?_, ?_⟩ <;>
    simp [expm, expmSlot, logm, logmSlot, SE3.AffineGroupStructure.inverse,
      setE33, setTrans, setRot, h33, hj3]

/-- Witness for C10 at a concrete input. -/
theorem C10_bottom_row_passthrough_witness :
    ((0 : Fin 4).val < 3) ∧
      (expm id (SE3.zerovec 1) 0 3 0 = SE3.zerovec 1 0 3 0 ∧
       logm id (SE3.zerovec 1) 0 3 0 = SE3.zerovec 1 0 3 0 ∧
       SE3.AffineGroupStructure.inverse (SE3.zerovec 1) 0 3 0
         = SE3.zerovec 1 0 3 0 ∧
       SE3.AffineGroupStructure.inverse (SE3.zerovec 1) 0 3 3
         = SE3.zerovec 1 0 3 3) :=
  ⟨by norm_num,
   C10_bottom_row_passthrough id id 1 (SE3.zerovec 1) (SE3.zerovec 1)
     (SE3.zerovec 1) 0 0 (by norm_num)⟩

/-- C9: `expm` of the zero Lie-algebra element is the identity element for
every k, and `logm` of the identity is the zero element, under the external
SO(3) contract that `SO3_expm 0 = I` and `SO3_logm I = 0`. -/
theorem C9_identity_fixed_point (so3e so3l : Mat3 → Mat3) (k : ℕ)
    (hexp : so3e 0 = 1) (hlog : so3l 1 = 0) :
    expm so3e (SE3.zerovec k) = SE3.AffineGroupStructure.identity k ∧
    logm so3l (SE3.AffineGroupStructure.identity k) = SE3.zerovec k := by
  constructor
  · funext i
    show expmSlot so3e 0 = 1
    ext a b
    simp only [expmSlot, rotBlk_zero, transBlk_zero, hexp, Matrix.mulVec_zero]
    fin_cases a <;> fin_cases b <;>
      simp [setE33, setTrans, setRot, Matrix.one_apply]
  · funext i
    show logmSlot so3l 1 = 0
    ext a b
    simp only [logmSlot, rotBlk_one, transBlk_one, hlog, Matrix.mulVec_zero]
    fin_cases a <;> fin_cases b <;>
      simp [setE33, setTrans, setRot, Matrix.one_apply]

/-- Witness for C9 with concrete SO(3) routines satisfying the contract. -/
theorem C9_identity_fixed_point_witness :
    expm (fun _ => 1) (SE3.zerovec 2) = SE3.AffineGroupStructure.identity 2 ∧
    logm (fun _ => 0) (SE3.AffineGroupStructure.identity 2) = SE3.zerovec 2 :=
  C9_identity_fixed_point (fun _ => 1) (fun _ => 0) 2 rfl rfl

/-- C8: entry n of `coords(X)` is, for slot i = n / 6 and position n % 6,
the corresponding element of (√2·X_i[0,1], √2·X_i[0,2], √2·X_i[1,2],
X_i[0,3], X_i[1,3], X_i[2,3]): column-major stacking across the batch. -/
theorem C8_coords_entries (k : ℕ) (X : Batch k) (n : Fin (6 * k)) :
    SE3.AffineGroupStructure.coords X n = coordsSpec X n := by
  have hn := n.isLt
  have h6 : n.val % 6 = 0 ∨ n.val % 6 = 1 ∨ n.val % 6 = 2 ∨ n.val % 6 = 3 ∨
      n.val % 6 = 4 ∨ n.val % 6 = 5 := by omega
  unfold SE3.AffineGroupStructure.coords coordsSpec
    SE3.AffineGroupStructure.concat6 SE3.AffineGroupStructure.x123
    SE3.AffineGroupStructure.x456
  rcases h6 with h | h | h | h | h | h <;>
    simp [h, mul_comm, Fin.castSucc_mk, castSucc_two]

/-- C2: for every batch of Lie-algebra elements (skew rotation block, zero
bottom row), `expm` returns per slot the block matrix with rotation block
`SO3_expm(Ω)`, translation block `V·t` with the stabilized V-matrix
coefficients, and bottom row (0,0,0,1). -/
theorem C2_expm_formula (so3e : Mat3 → Mat3) (k : ℕ) (X : Batch k)
    (hskew : ∀ i, (rotBlk (X i))ᵀ = - rotBlk (X i))
    (hbot : ∀ i, zeroBottomRow (X i)) :
    ∀ i, expm so3e X i = expmSpecSlot so3e (X i) := by
  intro i
  obtain ⟨hb0, hb1, hb2, hb3⟩ := hbot i
  ext a b
  simp only [expm, expmSlot, expmSpecSlot, theta, theta2]
  fin_cases a <;> fin_cases b <;>
    simp [setE33, setTrans, setRot, hb0, hb1, hb2, hb3]

/-- Witness for C2 at the zero Lie-algebra element. -/
theorem C2_expm_formula_witness :
    ((∀ i : Fin 1, (rotBlk (SE3.zerovec 1 i))ᵀ = - rotBlk (SE3.zerovec 1 i)) ∧
      (∀ i : Fin 1, zeroBottomRow (SE3.zerovec 1 i))) ∧
    (∀ i : Fin 1, expm id (SE3.zerovec 1) i = expmSpecSlot id (SE3.zerovec 1 i)) :=
  ⟨⟨fun _ => by simp [SE3.zerovec, rotBlk_zero],
    fun _ => ⟨rfl, rfl, rfl, rfl⟩⟩,
   C2_expm_formula id 1 (SE3.zerovec 1)
     (fun _ => by simp [SE3.zerovec, rotBlk_zero])
     (fun _ => ⟨rfl, rfl, rfl, rfl⟩)⟩

/-- C3: for every batch of valid SE(3) elements, `logm` returns per slot the
block matrix with rotation block `w = SO3_logm(R)`, translation block
`Vinv·t` with the stabilized inverse-V-matrix, and zero bottom row. -/
theorem C3_logm_formula (so3l : Mat3 → Mat3) (k : ℕ) (P : Batch k)
    (hval : ∀ i, isSE3slot (P i)) :
    ∀ i, logm so3l P i = logmSpecSlot so3l (P i) := by
  intro i
  obtain ⟨hO, hdet, h30, h31, h32, h33⟩ := hval i
  have harg1 : ∀ x : ℝ, 1/2 * x = x / 2 := fun x => by ring
  have harg2 : ∀ x : ℝ, x / 2 / Real.pi = x / (2 * Real.pi) := fun x => by ring
  ext a b
  simp only [logm, logmSlot, logmSpecSlot, theta, theta2, harg1, harg2]
  fin_cases a <;> fin_cases b <;>
    simp [setE33, setTrans, setRot, h30, h31, h32, h33]

/-- Witness for C3 at the identity element. -/
theorem C3_logm_formula_witness :
    (∀ i : Fin 1, isSE3slot (SE3.AffineGroupStructure.identity 1 i)) ∧
    (∀ i : Fin 1, logm id (SE3.AffineGroupStructure.identity 1) i
      = logmSpecSlot id (SE3.AffineGroupStructure.identity 1 i)) :=
  ⟨fun _ => ⟨by simp [SE3.AffineGroupStructure.identity, rotBlk_one],
      by simp [SE3.AffineGroupStructure.identity, rotBlk_one],
      by simp [SE3.AffineGroupStructure.identity, Matrix.one_apply],
      by simp [SE3.AffineGroupStructure.identity, Matrix.one_apply],
      by simp [SE3.AffineGroupStructure.identity, Matrix.one_apply],
      by simp [SE3.AffineGroupStructure.identity, Matrix.one_apply]⟩,
   C3_logm_formula id 1 (SE3.AffineGroupStructure.identity 1)
     (fun _ => ⟨by simp [SE3.AffineGroupStructure.identity, rotBlk_one],
        by simp [SE3.AffineGroupStructure.identity, rotBlk_one],
        by simp [SE3.AffineGroupStructure.identity, Matrix.one_apply],
        by simp [SE3.AffineGroupStructure.identity, Matrix.one_apply],
        by simp [SE3.AffineGroupStructure.identity, Matrix.one_apply],
        by simp [SE3.AffineGroupStructure.identity, Matrix.one_apply]⟩)⟩

/-- C5: `inverse` is computed per slot by the transpose/negate formula
(rotation block `Rᵗ`, translation block `−Rᵗ·t`, rest unchanged), and for
valid SE(3) input the slotwise product `inverse(P) · P` is the identity. -/
theorem C5_inverse_correct (k : ℕ) (P : Batch k)
    (hval : ∀ i, isSE3slot (P i)) :
    (∀ i, SE3.AffineGroupStructure.inverse P i = inverseSpecSlot (P i)) ∧
    matmulB (SE3.AffineGroupStructure.inverse P) P
      = SE3.AffineGroupStructure.identity k := by
  constructor
  · intro i
    ext a b
    fin_cases a <;> fin_cases b <;>
      simp [SE3.AffineGroupStructure.inverse, inverseSpecSlot, setTrans,
        setRot, Matrix.neg_mulVec, val_three]
  · funext i
    obtain ⟨hO, hdet, h30, h31, h32, h33⟩ := hval i
    have hOe : ∀ u v : Fin 3,
        P i 0 u.castSucc * P i 0 v.castSucc +
          P i 1 u.castSucc * P i 1 v.castSucc +
          P i 2 u.castSucc * P i 2 v.castSucc = if u = v then 1 else 0 := by
      intro u v
      have h := congrFun (congrFun hO u) v
      simpa [Matrix.mul_apply, Fin.sum_univ_three, rotBlk,
        Matrix.transpose_apply, Matrix.one_apply, Fin.castSucc_zero,
        Fin.castSucc_one, castSucc_two] using h
    have g00 := hOe 0 0
    have g01 := hOe 0 1
    have g02 := hOe 0 2
    have g10 := hOe 1 0
    have g11 := hOe 1 1
    have g12 := hOe 1 2
    have g20 := hOe 2 0
    have g21 := hOe 2 1
    have g22 := hOe 2 2
    simp [castSucc_two] at g00 g01 g02 g10 g11 g12 g20 g21 g22
    show SE3.AffineGroupStructure.inverse P i * P i = 1
    ext a b
    rw [Matrix.mul_apply, Fin.sum_univ_four]
    fin_cases a <;> fin_cases b <;>
      simp [SE3.AffineGroupStructure.inverse, setTrans, setRot, rotBlk,
        transBlk, Matrix.transpose_apply, Matrix.mulVec, Matrix.dotProduct,
        Fin.sum_univ_three, Matrix.neg_apply, Matrix.one_apply,
        Fin.castSucc_zero, Fin.castSucc_one, castSucc_two, val_three,
        h30, h31, h32, h33] <;>
      first
        | linear_combination g00
        | linear_combination g01
        | linear_combination g02
        | linear_combination g10
        | linear_combination g11
        | linear_combination g12
        | linear_combination g20
        | linear_combination g21
        | linear_combination g22
        | ring

/-- Witness for C5 at the identity element. -/
theorem C5_inverse_correct_witness :
    (∀ i : Fin 1, isSE3slot (SE3.AffineGroupStructure.identity 1 i)) ∧
    ((∀ i : Fin 1,
        SE3.AffineGroupStructure.inverse (SE3.AffineGroupStructure.identity 1) i
          = inverseSpecSlot (SE3.AffineGroupStructure.identity 1 i)) ∧
      matmulB
        (SE3.AffineGroupStructure.inverse (SE3.AffineGroupStructure.identity 1))
        (SE3.AffineGroupStructure.identity 1)
        = SE3.AffineGroupStructure.identity 1) :=
  ⟨fun _ => ⟨by simp [SE3.AffineGroupStructure.identity, rotBlk_one],
      by simp [SE3.AffineGroupStructure.identity, rotBlk_one],
      by simp [SE3.AffineGroupStructure.identity, Matrix.one_apply],
      by simp [SE3.AffineGroupStructure.identity, Matrix.one_apply],
      by simp [SE3.AffineGroupStructure.identity, Matrix.one_apply],
      by simp [SE3.AffineGroupStructure.identity, Matrix.one_apply]⟩,
   C5_inverse_correct 1 (SE3.AffineGroupStructure.identity 1)
     (fun _ => ⟨by simp [SE3.AffineGroupStructure.identity, rotBlk_one],
        by simp [SE3.AffineGroupStructure.identity, rotBlk_one],
        by simp [SE3.AffineGroupStructure.identity, Matrix.one_apply],
        by simp [SE3.AffineGroupStructure.identity, Matrix.one_apply],
        by simp [SE3.AffineGroupStructure.identity, Matrix.one_apply],
        by simp [SE3.AffineGroupStructure.identity, Matrix.one_apply]⟩)⟩
